import Mathlib

/-!
Verification of the `cleanup.py` utility from GhostKellz/zion.

The script deletes a hard-coded list of files and one directory, printing a
status line per operation.  We embed it shallowly: the filesystem is an
existence map `String → Bool`, and the fallibility of `os.remove` /
`shutil.rmtree` is modelled by a fault oracle attached to the world, which
for each path says whether the call raises (and with which message).  The
script itself becomes a total state-threading function `run`, total because
every raising call site in the source sits inside a `try`/`except` block.
-/

namespace Cleanup

/-- The hard-coded file target list from `cleanup.py` (`test_files`). -/
def test_files : List String :=
  [ "/data/projects/zion/compile_test.zig"
  , "/data/projects/zion/test_search.zig"
  , "/data/projects/zion/test_simple.zig"
  , "/data/projects/zion/test_build.sh"
  , "/data/projects/zion/cleanup.py" ]

/-- The hard-coded directory target from `cleanup.py` (`test_project_dir`). -/
def test_project_dir : String := "/data/projects/zion/test-project"

/-- A world: the filesystem existence map plus a fault oracle saying, for each
path, whether `os.remove` (resp. `shutil.rmtree`) on that path raises, and
with which message.  `none` means the call succeeds. -/
structure World where
  ex : String → Bool
  removeErr : String → Option String
  rmtreeErr : String → Option String

/-- `os.remove p`: raises per the fault oracle; on success the single path `p`
ceases to exist and nothing else changes. -/
def osRemove (w : World) (p : String) : Except String World :=
  match w.removeErr p with
  | some e => .error e
  | none => .ok { w with ex := fun q => if q = p then false else w.ex q }

/-- `shutil.rmtree d`: raises per the fault oracle; on success `d` and every
path strictly below it cease to exist and nothing else changes. -/
def shutilRmtree (w : World) (d : String) : Except String World :=
  match w.rmtreeErr d with
  | some e => .error e
  | none =>
      .ok { w with ex := fun q =>
              if q = d ∨ (d ++ "/").data.isPrefixOf q.data = true then false
              else w.ex q }

/-- One iteration of the `for file in test_files` loop: the `try` body checks
existence and removes, the `except` arm converts the raised message into an
error line.  Returns the new world and the single line printed. -/
def processFile (w : World) (p : String) : World × String :=
  if w.ex p then
    match osRemove w p with
    | .ok w' => (w', "Removed " ++ p)
    | .error e => (w, "Error removing " ++ p ++ ": " ++ e)
  else (w, "File not found: " ++ p)

/-- The whole `for` loop over the file targets, threading the world and
collecting the printed lines in order. -/
def processFiles (w : World) : List String → World × List String
  | [] => (w, [])
  | p :: ps =>
      let r := processFile w p
      let rest := processFiles r.1 ps
      (rest.1, r.2 :: rest.2)

/-- The directory block: `if os.path.exists(test_project_dir)` guards a
`try shutil.rmtree ... except` that prints one line; when the directory is
absent nothing happens and nothing is printed. -/
def processDir (w : World) (d : String) : World × List String :=
  if w.ex d then
    match shutilRmtree w d with
    | .ok w' => (w', ["Removed directory " ++ d])
    | .error e => (w, ["Error removing directory " ++ d ++ ": " ++ e])
  else (w, [])

/-- The whole script: file loop, directory block, final completion line. -/
def run (w : World) : World × List String :=
  let r1 := processFiles w test_files
  let r2 := processDir r1.1 test_project_dir
  (r2.1, r1.2 ++ r2.2 ++ ["Cleanup complete"])

/-- Per-path outcome line as the spec describes it, computed from a single
world: removed on success, not-found when absent, error line on failure. -/
def fileOutcomeLine (w : World) (p : String) : String :=
  if w.ex p then
    match w.removeErr p with
    | none => "Removed " ++ p
    | some e => "Error removing " ++ p ++ ": " ++ e
  else "File not found: " ++ p

/-- Directory outcome lines as the spec describes them, computed from a single
world: nothing when absent, else one success or error line. -/
def dirOutcomeLines (w : World) : List String :=
  if w.ex test_project_dir then
    match w.rmtreeErr test_project_dir with
    | none => ["Removed directory " ++ test_project_dir]
    | some e => ["Error removing directory " ++ test_project_dir ++ ": " ++ e]
  else []

/-- A world where no target exists (e.g. the state after a clean run). -/
def wEmpty : World := ⟨fun _ => false, fun _ => none, fun _ => none⟩

/-- A world where every path exists and every delete succeeds. -/
def wClean : World := ⟨fun _ => true, fun _ => none, fun _ => none⟩

/-- A world where every path exists and every delete raises. -/
def wFail : World :=
  ⟨fun _ => true, fun _ => some "Permission denied",
   fun _ => some "Permission denied"⟩

/-! Section: String head lemmas, used to separate the message formats -/

theorem data_head_append (s t : String) (c : Char)
    (h : s.data.head? = some c) : (s ++ t).data.head? = some c := by
  rw [String.data_append]
  cases hs : s.data with
  | nil => rw [hs] at h; simp at h
  | cons a l =>
      rw [hs] at h
      simp only [List.head?_cons, Option.some.injEq] at h
      simp [h]

theorem string_ne_of_head (s t : String) (c d : Char)
    (hs : s.data.head? = some c) (ht : t.data.head? = some d)
    (hcd : c ≠ d) : s ≠ t := by
  intro h
  rw [h, ht] at hs
  exact hcd (Option.some.inj hs).symm

/-! Section: State-preservation lemmas -/

theorem processFile_removeErr (w : World) (p : String) :
    (processFile w p).1.removeErr = w.removeErr := by
  unfold processFile osRemove
  cases h : w.ex p <;> simp
  cases w.removeErr p <;> simp

theorem processFile_rmtreeErr (w : World) (p : String) :
    (processFile w p).1.rmtreeErr = w.rmtreeErr := by
  unfold processFile osRemove
  cases h : w.ex p <;> simp
  cases w.removeErr p <;> simp

theorem processFile_ex_ne (w : World) (p q : String) (hq : q ≠ p) :
    (processFile w p).1.ex q = w.ex q := by
  unfold processFile osRemove
  cases h : w.ex p <;> simp
  cases w.removeErr p <;> simp [hq]

theorem processFiles_removeErr (w : World) (ps : List String) :
    (processFiles w ps).1.removeErr = w.removeErr := by
  induction ps generalizing w with
  | nil => rfl
  | cons p ps ih =>
      simp only [processFiles]
      rw [ih, processFile_removeErr]

theorem processFiles_rmtreeErr (w : World) (ps : List String) :
    (processFiles w ps).1.rmtreeErr = w.rmtreeErr := by
  induction ps generalizing w with
  | nil => rfl
  | cons p ps ih =>
      simp only [processFiles]
      rw [ih, processFile_rmtreeErr]

theorem processFiles_ex_not_mem (w : World) (ps : List String) (q : String)
    (hq : q ∉ ps) : (processFiles w ps).1.ex q = w.ex q := by
  induction ps generalizing w with
  | nil => rfl
  | cons p ps ih =>
      have h1 : q ∉ ps := fun h => hq (List.mem_cons_of_mem _ h)
      have h2 : q ≠ p := fun h => hq (by rw [h]; exact List.mem_cons_self _ _)
      simp only [processFiles]
      rw [ih _ h1, processFile_ex_ne _ _ _ h2]

theorem fileOutcomeLine_congr (w w' : World) (p : String)
    (hex : w'.ex p = w.ex p) (herr : w'.removeErr = w.removeErr) :
    fileOutcomeLine w' p = fileOutcomeLine w p := by
  unfold fileOutcomeLine
  rw [hex, herr]

/-- The line printed by one loop iteration is the per-path outcome line. -/
theorem processFile_out (w : World) (p : String) :
    (processFile w p).2 = fileOutcomeLine w p := by
  unfold processFile osRemove fileOutcomeLine
  cases h : w.ex p <;> simp
  cases w.removeErr p <;> simp

/-- On a duplicate-free target list the loop's output is the pointwise map of
the per-path outcome line over the initial world. -/
theorem processFiles_out (w : World) (ps : List String) (hnd : ps.Nodup) :
    (processFiles w ps).2 = ps.map (fileOutcomeLine w) := by
  induction ps generalizing w with
  | nil => rfl
  | cons p ps ih =>
      rw [List.nodup_cons] at hnd
      simp only [processFiles, List.map_cons]
      rw [processFile_out, ih _ hnd.2]
      congr 1
      apply List.map_congr_left
      intro q hq
      exact fileOutcomeLine_congr w _ q
        (processFile_ex_ne w p q (fun h => hnd.1 (h ▸ hq)))
        (processFile_removeErr w p)

theorem test_files_nodup : test_files.Nodup := by decide

theorem dir_not_mem_test_files : test_project_dir ∉ test_files := by decide

/-- The directory block's output is `dirOutcomeLines` of the world it runs in. -/
theorem processDir_out (w : World) :
    (processDir w test_project_dir).2 = dirOutcomeLines w := by
  unfold processDir shutilRmtree dirOutcomeLines
  cases h : w.ex test_project_dir <;> simp
  cases w.rmtreeErr test_project_dir <;> simp

/-- Main structural theorem: the full transcript of a run is the file outcome
lines in list order, then the directory lines, then the completion line, all
computed from the initial world. -/
theorem run_out (w : World) :
    (run w).2 = test_files.map (fileOutcomeLine w)
      ++ dirOutcomeLines w ++ ["Cleanup complete"] := by
  simp only [run]
  rw [processFiles_out w test_files test_files_nodup, processDir_out]
  congr 1
  congr 1
  unfold dirOutcomeLines
  rw [processFiles_ex_not_mem w test_files test_project_dir dir_not_mem_test_files,
    processFiles_rmtreeErr]

/-! Section: More state lemmas -/

theorem processFile_ex_self (w : World) (p : String) :
    (processFile w p).1.ex p = (w.ex p && (w.removeErr p).isSome) := by
  unfold processFile osRemove
  cases h : w.ex p with
  | false => simp [h]
  | true => cases herr : w.removeErr p <;> simp [h, herr]

theorem processDir_removeErr (w : World) (d : String) :
    (processDir w d).1.removeErr = w.removeErr := by
  unfold processDir shutilRmtree
  cases h : w.ex d <;> simp
  cases w.rmtreeErr d <;> simp

theorem processDir_rmtreeErr (w : World) (d : String) :
    (processDir w d).1.rmtreeErr = w.rmtreeErr := by
  unfold processDir shutilRmtree
  cases h : w.ex d <;> simp
  cases w.rmtreeErr d <;> simp

theorem processDir_ex_ne (w : World) (d q : String) (h1 : q ≠ d)
    (h2 : (d ++ "/").data.isPrefixOf q.data = false) :
    (processDir w d).1.ex q = w.ex q := by
  unfold processDir shutilRmtree
  cases h : w.ex d with
  | false => simp
  | true =>
      cases herr : w.rmtreeErr d with
      | some e => simp
      | none =>
          simp only [if_true]
          show (if q = d ∨ (d ++ "/").data.isPrefixOf q.data = true
                then false else w.ex q) = w.ex q
          rw [if_neg]
          rintro (hq | hq)
          · exact h1 hq
          · rw [h2] at hq; exact Bool.false_ne_true hq

theorem processDir_ex_self (w : World) (d : String) :
    (processDir w d).1.ex d = (w.ex d && (w.rmtreeErr d).isSome) := by
  unfold processDir shutilRmtree
  cases h : w.ex d with
  | false => simp [h]
  | true => cases herr : w.rmtreeErr d <;> simp [h, herr]

theorem processFiles_ex_mem (w : World) (ps : List String) (hnd : ps.Nodup)
    (p : String) (hp : p ∈ ps) :
    (processFiles w ps).1.ex p = (w.ex p && (w.removeErr p).isSome) := by
  induction ps generalizing w with
  | nil => cases hp
  | cons q qs ih =>
      rw [List.nodup_cons] at hnd
      rcases List.mem_cons.mp hp with h | h
      · subst h
        simp only [processFiles]
        rw [processFiles_ex_not_mem _ _ _ hnd.1, processFile_ex_self]
      · have hne : p ≠ q := fun e => hnd.1 (by rw [← e]; exact h)
        simp only [processFiles]
        rw [ih _ hnd.2 h, processFile_ex_ne _ _ _ hne, processFile_removeErr]

theorem mem_test_files_facts (p : String) (hp : p ∈ test_files) :
    p ≠ test_project_dir ∧
    (test_project_dir ++ "/").data.isPrefixOf p.data = false := by
  simp only [test_files, List.mem_cons, List.not_mem_nil, or_false] at hp
  rcases hp with h | h | h | h | h <;> subst h <;> exact ⟨by decide, by decide⟩

theorem run_ex_file (w : World) (p : String) (hp : p ∈ test_files) :
    (run w).1.ex p = (w.ex p && (w.removeErr p).isSome) := by
  obtain ⟨h1, h2⟩ := mem_test_files_facts p hp
  simp only [run]
  rw [processDir_ex_ne _ _ _ h1 h2,
    processFiles_ex_mem w test_files test_files_nodup p hp]

theorem run_ex_dir (w : World) :
    (run w).1.ex test_project_dir =
      (w.ex test_project_dir && (w.rmtreeErr test_project_dir).isSome) := by
  simp only [run]
  rw [processDir_ex_self,
    processFiles_ex_not_mem _ _ _ dir_not_mem_test_files,
    processFiles_rmtreeErr]

theorem processFile_state_not_ex (w : World) (p : String)
    (h : w.ex p = false) :
    processFile w p = (w, "File not found: " ++ p) := by
  unfold processFile
  simp [h]

theorem processFiles_state_not_ex (w : World) (ps : List String)
    (h : ∀ p ∈ ps, w.ex p = false) :
    processFiles w ps = (w, ps.map (fun p => "File not found: " ++ p)) := by
  induction ps with
  | nil => rfl
  | cons p ps ih =>
      simp only [processFiles, List.map_cons]
      rw [processFile_state_not_ex w p (h p (List.mem_cons_self _ _))]
      rw [ih (fun q hq => h q (List.mem_cons_of_mem _ hq))]

theorem processDir_state_not_ex (w : World) (d : String)
    (h : w.ex d = false) : processDir w d = (w, []) := by
  unfold processDir
  simp [h]

/-! Section: Message-format separation -/

theorem fileOutcomeLine_ne_complete (w : World) (p : String) :
    fileOutcomeLine w p ≠ "Cleanup complete" := by
  have hC : ("Cleanup complete" : String).data.head? = some 'C' := rfl
  unfold fileOutcomeLine
  cases hex : w.ex p with
  | false =>
      simp only [Bool.false_eq_true, if_false]
      exact string_ne_of_head _ _ 'F' 'C'
        (data_head_append _ _ _ rfl) hC (by decide)
  | true =>
      simp only [if_true]
      cases w.removeErr p with
      | none =>
          exact string_ne_of_head _ _ 'R' 'C'
            (data_head_append _ _ _ rfl) hC (by decide)
      | some e =>
          exact string_ne_of_head _ _ 'E' 'C'
            (data_head_append _ _ _ rfl) hC (by decide)

theorem dirOutcomeLines_ne_complete (w : World) (l : String)
    (hl : l ∈ dirOutcomeLines w) : l ≠ "Cleanup complete" := by
  have hC : ("Cleanup complete" : String).data.head? = some 'C' := rfl
  unfold dirOutcomeLines at hl
  cases hex : w.ex test_project_dir with
  | false => rw [hex] at hl; simp at hl
  | true =>
      rw [hex] at hl
      simp only [if_true] at hl
      cases herr : w.rmtreeErr test_project_dir with
      | none =>
          rw [herr] at hl
          simp only [List.mem_singleton] at hl
          subst hl
          exact string_ne_of_head _ _ 'R' 'C'
            (data_head_append _ _ _ rfl) hC (by decide)
      | some e =>
          rw [herr] at hl
          simp only [List.mem_singleton] at hl
          subst hl
          exact string_ne_of_head _ _ 'E' 'C'
            (data_head_append _ _ _ rfl) hC (by decide)

/-! Section: Claim theorems -/

/-- Claim C1: for every file path in the fixed target list the run emits exactly one
outcome line, in list position: "Removed P" when P exists and deletion
succeeds, "File not found: P" when P does not exist, and
"Error removing P: e" when deletion raises e; a failure on one path never
aborts the rest (every one of the five positions is filled). -/
theorem file_targets_one_outcome_line (w : World) :
    ((run w).2).take test_files.length = test_files.map (fun p =>
      if w.ex p then
        match w.removeErr p with
        | none => "Removed " ++ p
        | some e => "Error removing " ++ p ++ ": " ++ e
      else "File not found: " ++ p) := by
  rw [run_out, List.append_assoc]
  have hlen : (test_files.map (fileOutcomeLine w)).length = test_files.length :=
    List.length_map _ _
  rw [← hlen, List.take_left]
  rfl

/-- Claim C2: every configured failure of a delete attempt is converted into a
printed error line, and the run still finishes with "Cleanup complete" as its
last line; in the embedding `run` is a total function, so no failure escapes
and the process exit is unconditionally successful. -/
theorem failures_suppressed (w : World) :
    (∀ p, p ∈ test_files → ∀ e, w.ex p = true → w.removeErr p = some e →
        ("Error removing " ++ p ++ ": " ++ e) ∈ (run w).2) ∧
    (∀ e, w.ex test_project_dir = true →
        w.rmtreeErr test_project_dir = some e →
        ("Error removing directory " ++ test_project_dir ++ ": " ++ e)
          ∈ (run w).2) ∧
    (run w).2.getLast? = some "Cleanup complete" := by
  refine ⟨?_, ?_, ?_⟩
  · intro p hp e hex herr
    rw [run_out]
    refine List.mem_append.mpr (Or.inl (List.mem_append.mpr (Or.inl
      (List.mem_map.mpr ⟨p, hp, ?_⟩))))
    unfold fileOutcomeLine
    simp [hex, herr]
  · intro e hex herr
    rw [run_out]
    refine List.mem_append.mpr (Or.inl (List.mem_append.mpr (Or.inr ?_)))
    unfold dirOutcomeLines
    simp [hex, herr]
  · rw [run_out]
    exact List.getLast?_concat _

/-- Claim C3: when the directory target is absent the run prints no line at all for
it; when it is present the run prints exactly one directory line, "Removed
directory D" on success and "Error removing directory D: e" on failure, and
in every case still ends with the completion line. -/
theorem dir_target_behavior (w : World) :
    (w.ex test_project_dir = false →
      (run w).2 = test_files.map (fileOutcomeLine w) ++ ["Cleanup complete"]) ∧
    (w.ex test_project_dir = true → w.rmtreeErr test_project_dir = none →
      (run w).2 = test_files.map (fileOutcomeLine w)
        ++ ["Removed directory " ++ test_project_dir, "Cleanup complete"]) ∧
    (∀ e, w.ex test_project_dir = true →
      w.rmtreeErr test_project_dir = some e →
      (run w).2 = test_files.map (fileOutcomeLine w)
        ++ ["Error removing directory " ++ test_project_dir ++ ": " ++ e,
            "Cleanup complete"]) := by
  refine ⟨?_, ?_, ?_⟩
  · intro hex
    rw [run_out]
    unfold dirOutcomeLines
    simp [hex]
  · intro hex herr
    rw [run_out]
    unfold dirOutcomeLines
    simp [hex, herr]
  · intro e hex herr
    rw [run_out]
    unfold dirOutcomeLines
    simp [hex, herr]

/-- Claim C4: every run ends with the line "Cleanup complete": it is the last line
of the transcript and occurs in the transcript exactly once, whatever the
filesystem state and however many operations failed. -/
theorem completion_line_last_and_once (w : World) :
    (run w).2.getLast? = some "Cleanup complete" ∧
    (run w).2.count "Cleanup complete" = 1 := by
  constructor
  · rw [run_out]
    exact List.getLast?_concat _
  · rw [run_out, List.count_append, List.count_append]
    have h1 : (test_files.map (fileOutcomeLine w)).count "Cleanup complete"
        = 0 := by
      rw [List.count_eq_zero]
      intro hmem
      rcases List.mem_map.mp hmem with ⟨p, _, hline⟩
      exact fileOutcomeLine_ne_complete w p hline
    have h2 : (dirOutcomeLines w).count "Cleanup complete" = 0 := by
      rw [List.count_eq_zero]
      intro hmem
      exact dirOutcomeLines_ne_complete w _ hmem rfl
    rw [h1, h2]
    rfl

/-- Claim C5: the transcript is exactly the per-file outcome lines in target-list
order, then the directory lines, then the completion line: files are always
processed before the directory and messages follow the fixed list order. -/
theorem output_order (w : World) :
    (run w).2 = test_files.map (fileOutcomeLine w) ++ dirOutcomeLines w
      ++ ["Cleanup complete"] := run_out w

/-- Claim C6: postcondition on every run: each path of the fixed file target list
either no longer exists afterwards, or it still exists and an error line
naming it (with the raised message) was printed. -/
theorem file_target_postcondition (w : World) (p : String)
    (hp : p ∈ test_files) :
    (run w).1.ex p = false ∨
    ((run w).1.ex p = true ∧ ∃ e, w.removeErr p = some e ∧
      ("Error removing " ++ p ++ ": " ++ e) ∈ (run w).2) := by
  rw [run_ex_file w p hp]
  cases hex : w.ex p with
  | false => exact Or.inl (by simp)
  | true =>
      cases herr : w.removeErr p with
      | none => exact Or.inl (by simp [herr])
      | some e =>
          refine Or.inr ⟨by simp [herr], e, rfl, ?_⟩
          rw [run_out]
          refine List.mem_append.mpr (Or.inl (List.mem_append.mpr (Or.inl
            (List.mem_map.mpr ⟨p, hp, ?_⟩))))
          unfold fileOutcomeLine
          simp [hex, herr]

/-- Claim C7: idempotence: when no delete raises, a second run right after the
first prints exactly one "File not found" line per file target plus the
completion line (no directory line, no error line), and leaves the world —
in particular the filesystem — unchanged. -/
theorem run_idempotent (w : World) (hrm : ∀ p, w.removeErr p = none)
    (hrt : ∀ p, w.rmtreeErr p = none) :
    (run (run w).1).2 =
      test_files.map (fun p => "File not found: " ++ p)
        ++ ["Cleanup complete"] ∧
    (run (run w).1).1 = (run w).1 := by
  have hfiles : ∀ p ∈ test_files, (run w).1.ex p = false := by
    intro p hp
    rw [run_ex_file w p hp, hrm p]
    simp
  have hdir : (run w).1.ex test_project_dir = false := by
    rw [run_ex_dir, hrt]
    simp
  constructor
  · rw [run_out]
    have hmap : test_files.map (fileOutcomeLine (run w).1)
        = test_files.map (fun p => "File not found: " ++ p) := by
      apply List.map_congr_left
      intro p hp
      unfold fileOutcomeLine
      simp [hfiles p hp]
    have hd : dirOutcomeLines (run w).1 = [] := by
      unfold dirOutcomeLines
      simp [hdir]
    rw [hmap, hd, List.append_nil]
  · show (run (run w).1).1 = (run w).1
    generalize hw1 : (run w).1 = w1 at hfiles hdir ⊢
    simp only [run]
    rw [processFiles_state_not_ex _ _ hfiles]
    show (processDir w1 test_project_dir).1 = w1
    rw [processDir_state_not_ex _ _ hdir]

/-- Claim C8: every printed line matches one of the six verbatim message formats of
the interface: removed-file, file-not-found, file-error, removed-directory,
directory-error, or the completion line; nothing else is ever printed. -/
theorem output_line_formats (w : World) (line : String)
    (h : line ∈ (run w).2) :
    (∃ p, line = "Removed " ++ p) ∨
    (∃ p, line = "File not found: " ++ p) ∨
    (∃ p e, line = "Error removing " ++ p ++ ": " ++ e) ∨
    (∃ p, line = "Removed directory " ++ p) ∨
    (∃ p e, line = "Error removing directory " ++ p ++ ": " ++ e) ∨
    line = "Cleanup complete" := by
  rw [run_out] at h
  rcases List.mem_append.mp h with h1 | h1
  · rcases List.mem_append.mp h1 with h2 | h2
    · rcases List.mem_map.mp h2 with ⟨p, _, hline⟩
      unfold fileOutcomeLine at hline
      cases hex : w.ex p with
      | false =>
          rw [hex] at hline
          simp only [Bool.false_eq_true, if_false] at hline
          exact Or.inr (Or.inl ⟨p, hline.symm⟩)
      | true =>
          rw [hex] at hline
          simp only [if_true] at hline
          cases herr : w.removeErr p with
          | none =>
              rw [herr] at hline
              exact Or.inl ⟨p, hline.symm⟩
          | some e =>
              rw [herr] at hline
              exact Or.inr (Or.inr (Or.inl ⟨p, e, hline.symm⟩))
    · unfold dirOutcomeLines at h2
      cases hex : w.ex test_project_dir with
      | false => rw [hex] at h2; simp at h2
      | true =>
          rw [hex] at h2
          simp only [if_true] at h2
          cases herr : w.rmtreeErr test_project_dir with
          | none =>
              rw [herr] at h2
              simp only [List.mem_singleton] at h2
              exact Or.inr (Or.inr (Or.inr (Or.inl ⟨test_project_dir, h2⟩)))
          | some e =>
              rw [herr] at h2
              simp only [List.mem_singleton] at h2
              exact Or.inr (Or.inr (Or.inr (Or.inr (Or.inl
                ⟨test_project_dir, e, h2⟩))))
  · simp only [List.mem_singleton] at h1
    exact Or.inr (Or.inr (Or.inr (Or.inr (Or.inr h1))))

/-- Claim C9: the transcript always has exactly one line per entry of the
five-element file list, one directory line exactly when the directory exists
at its check, and the completion line: 7 lines when the directory is present
and 6 when it is absent. -/
theorem output_line_count (w : World) :
    (run w).2.length = if w.ex test_project_dir then 7 else 6 := by
  rw [run_out]
  unfold dirOutcomeLines
  cases hex : w.ex test_project_dir with
  | false => simp [hex, test_files]
  | true =>
      cases herr : w.rmtreeErr test_project_dir with
      | none => simp [hex, herr, test_files]
      | some e => simp [hex, herr, test_files]

/-- Claim C10: frame property: a run never changes the existence of any path other
than the five file targets, the directory target itself, and the paths
strictly below the directory target. -/
theorem untouched_paths (w : World) (q : String) (h1 : q ∉ test_files)
    (h2 : q ≠ test_project_dir)
    (h3 : (test_project_dir ++ "/").data.isPrefixOf q.data = false) :
    (run w).1.ex q = w.ex q := by
  simp only [run]
  rw [processDir_ex_ne _ _ _ h2 h3, processFiles_ex_not_mem _ _ _ h1]

/-! Section: Witnesses -/

/-- Witness for C2 at a concrete world where every delete raises. -/
theorem failures_suppressed_witness :
    ("Error removing " ++ "/data/projects/zion/compile_test.zig" ++ ": "
      ++ "Permission denied") ∈ (run wFail).2 :=
  (failures_suppressed wFail).1 "/data/projects/zion/compile_test.zig"
    (by decide) "Permission denied" rfl rfl

/-- Witness for C3 at a concrete world where no target exists. -/
theorem dir_target_behavior_witness :
    (run wEmpty).2 = test_files.map (fileOutcomeLine wEmpty)
      ++ ["Cleanup complete"] :=
  (dir_target_behavior wEmpty).1 rfl

/-- Witness for C6 at a concrete world where every delete raises. -/
theorem file_target_postcondition_witness :
    (run wFail).1.ex "/data/projects/zion/compile_test.zig" = false ∨
    ((run wFail).1.ex "/data/projects/zion/compile_test.zig" = true ∧
      ∃ e, wFail.removeErr "/data/projects/zion/compile_test.zig" = some e ∧
        ("Error removing " ++ "/data/projects/zion/compile_test.zig"
          ++ ": " ++ e) ∈ (run wFail).2) :=
  file_target_postcondition wFail "/data/projects/zion/compile_test.zig"
    (by decide)

/-- Witness for C7 at a concrete world where everything exists and every
delete succeeds. -/
theorem run_idempotent_witness :
    (run (run wClean).1).2 =
      test_files.map (fun p => "File not found: " ++ p)
        ++ ["Cleanup complete"] ∧
    (run (run wClean).1).1 = (run wClean).1 :=
  run_idempotent wClean (fun _ => rfl) (fun _ => rfl)

/-- Witness for C8 at the completion line of a run on the empty world. -/
theorem output_line_formats_witness :
    (∃ p, "Cleanup complete" = "Removed " ++ p) ∨
    (∃ p, "Cleanup complete" = "File not found: " ++ p) ∨
    (∃ p e, "Cleanup complete" = "Error removing " ++ p ++ ": " ++ e) ∨
    (∃ p, "Cleanup complete" = "Removed directory " ++ p) ∨
    (∃ p e, "Cleanup complete" = "Error removing directory " ++ p
      ++ ": " ++ e) ∨
    ("Cleanup complete" : String) = "Cleanup complete" :=
  output_line_formats wEmpty "Cleanup complete" (by decide)

/-- Witness for C10 at a path outside every target. -/
theorem untouched_paths_witness :
    (run wClean).1.ex "/etc/passwd" = wClean.ex "/etc/passwd" :=
  untouched_paths wClean "/etc/passwd" (by decide) (by decide) (by decide)

end Cleanup
